import Mathlib

/-!
Verification of the Whitted-style ray tracer (src/raytracer_logic.cpp) and the
expression evaluator (src/calculator.cpp).

The geometry/algebra substrate (vector.h, geometry.h, intersection.h, ...) is
an external collaborator of the renderer: the renderer consumes it through the
functions Length, Normalize, DotProduct, Reflect, Refract, std::pow, the
per-primitive intersection test, the inside-test and DefineNormal.  Those are
modelled as an abstract record `Geo` of functions plus the per-object function
fields of `Obj`, so every theorem below holds for every substrate.  Colors and
scalars are rationals (the C++ doubles), so all definitions are executable.

C++ `std::optional` absence is `Option.none`; dereferencing a disengaged
optional is undefined behavior in C++ and is modelled by `Except.error ()`:
a computation returns `Except.ok c` exactly when the C++ run is free of that
undefined behavior (and, for the calculator, free of division by zero).
-/

/-- The C++ `Vector` (vector.h): three double components, here rationals. -/
structure Vec where
  x : ℚ
  y : ℚ
  z : ℚ
  deriving DecidableEq

def Vec.zero : Vec := ⟨0, 0, 0⟩

def Vec.add (a b : Vec) : Vec := ⟨a.x + b.x, a.y + b.y, a.z + b.z⟩

def Vec.sub (a b : Vec) : Vec := ⟨a.x - b.x, a.y - b.y, a.z - b.z⟩

def Vec.neg (a : Vec) : Vec := ⟨-a.x, -a.y, -a.z⟩

/-- Scalar multiplication `c * v`. -/
def Vec.smul (c : ℚ) (a : Vec) : Vec := ⟨c * a.x, c * a.y, c * a.z⟩

/-- Componentwise product, the C++ `Vector * Vector`. -/
def Vec.hmul (a b : Vec) : Vec := ⟨a.x * b.x, a.y * b.y, a.z * b.z⟩

/-- An intersection record (intersection.h): distance along the ray, hit
position and surface normal. -/
structure Intersection where
  distance : ℚ
  position : Vec
  normal : Vec
  deriving DecidableEq

/-- The material of material.h as the renderer reads it. -/
structure Material where
  ambient_color : Vec
  intensity : Vec
  diffuse_color : Vec
  specular_color : Vec
  specular_exponent : ℚ
  refraction_index : ℚ
  albedo : Vec
  deriving DecidableEq

/-- A ray: origin and direction (`GetDirection`). -/
structure Ray where
  origin : Vec
  direction : Vec
  deriving DecidableEq

/-- One primitive of a scene collection (triangle-like or sphere-like), with
the substrate functions the renderer calls on it: `GetIntersection(ray,
obj.GetObject())`, `obj.IsInside(direction, normal)`, `DefineNormal(obj, i)`,
and `obj.material`. -/
structure Obj where
  material : Material
  intersect : Ray → Option Intersection
  isInside : Vec → Vec → Bool
  defineNormal : Intersection → Intersection

/-- A point light. -/
structure Light where
  position : Vec
  intensity : Vec

/-- A scene: the two primitive collections and the lights. -/
structure Scene where
  objects : List Obj
  sphere_objects : List Obj
  lights : List Light

/-- Modelled from the spec: render_options.h is not under src/.  The render
mode is final-shaded / depth-visualization / normal-visualization. -/
inductive RenderMode where
  | kDepth
  | kNormal
  | kFull
  deriving DecidableEq

/-- Modelled from the spec: render_options.h is not under src/.  The remaining
recursion depth is a budget decremented per bounce, copied by value into each
recursive call. -/
structure RenderOptions where
  mode : RenderMode
  depth : Nat

/-- The external geometry substrate: the functions of vector.h / geometry.h
the renderer consumes, plus the value a default-constructed `Intersection`
holds (the no-hit-yet state). -/
structure Geo where
  length : Vec → ℚ
  normalize : Vec → Vec
  dot : Vec → Vec → ℚ
  reflect : Vec → Vec → Vec
  refract : Vec → Vec → ℚ → Option Vec
  pow : ℚ → ℚ → ℚ
  default_i : Intersection

/-- The loop body of `FindNearestIntersection` (raytracer_logic.cpp lines
19-32): `target` is the C++ `target_object` pointer (null at entry of each
call), `best` the shared best-so-far record, `flag` the carry-over flag. -/
def fniLoop (ray : Ray) (flag : Bool) :
    List Obj → Intersection → Option Obj → Intersection × Option Obj
  | [], best, target => (best, target)
  | obj :: rest, best, target =>
    match obj.intersect ray with
    | none => fniLoop ray flag rest best target
    | some i =>
      if (flag = false ∧ target.isNone = true) ∨ i.distance < best.distance then
        fniLoop ray flag rest i (some obj)
      else
        fniLoop ray flag rest best target

/-- `FindNearestIntersection(objects, ray, best_intersection, flag)`: returns
the updated best-so-far record and the winning primitive (the C++ mutates
`best_intersection` in place and returns the pointer). -/
def FindNearestIntersection (objects : List Obj) (ray : Ray)
    (best : Intersection) (flag : Bool) : Intersection × Option Obj :=
  fniLoop ray flag objects best none

/-- The best-so-far record `IsInShadow` ends with (lines 38-44): the two
searches over the light-to-point ray, the flag threaded from the first to the
second, starting from a default-constructed `Intersection`. -/
def shadowBest (g : Geo) (scene : Scene) (light : Light) (pos : Vec) :
    Intersection :=
  let light_vector := g.normalize (Vec.sub pos light.position)
  let light_ray : Ray := ⟨light.position, light_vector⟩
  let r1 := FindNearestIntersection scene.objects light_ray g.default_i false
  (FindNearestIntersection scene.sphere_objects light_ray r1.1 r1.2.isSome).1

/-- `IsInShadow(scene, light, pos)` (lines 34-46): shadow iff the nearest hit
along the light ray lies farther than 1e-6 from the queried point. -/
def IsInShadow (g : Geo) (scene : Scene) (light : Light) (pos : Vec) : Bool :=
  decide (1 / 1000000 < g.length (Vec.sub pos (shadowBest g scene light pos).position))

/-- The diffuse/specular accumulation loop of `GetColor` (lines 60-77),
returning `(diffusion, specular)`. -/
def shadeLights (g : Geo) (scene : Scene) (view_ray : Ray)
    (vis : Intersection) (m : Material) : Vec × Vec :=
  scene.lights.foldl
    (fun acc light =>
      let light_vector := g.normalize (Vec.sub vis.position light.position)
      let light_ray : Ray := ⟨light.position, light_vector⟩
      if IsInShadow g scene light vis.position then acc
      else
        let l_d := max 0 (g.dot (Vec.neg light_ray.direction) vis.normal)
        let l_s := g.pow
          (max 0 (g.dot (Vec.neg view_ray.direction)
            (g.reflect light_ray.direction vis.normal)))
          m.specular_exponent
        (Vec.add acc.1 (Vec.hmul (Vec.smul l_d light.intensity) m.diffuse_color),
         Vec.add acc.2 (Vec.hmul (Vec.smul l_s light.intensity) m.specular_color)))
    (Vec.zero, Vec.zero)

/-- The body of `GetColor` (lines 48-104).  `recurse` is the nested `RayCast`
call already closed over the decremented options (the C++ does
`opt.depth -= 1` before both bounces).  In the refraction branch the C++ runs
`refracted_ray->Normalize()` BEFORE testing `if (refracted_ray)`: on total
internal reflection that dereferences the disengaged optional, which is
undefined behavior, modelled as `Except.error ()`. -/
def GetColorBody (g : Geo) (scene : Scene) (view_ray : Ray) (mode : RenderMode)
    (vis : Intersection) (obj : Obj) (recurse : Ray → Except Unit Vec) :
    Except Unit Vec :=
  match mode with
  | RenderMode.kDepth => Except.ok ⟨vis.distance, vis.distance, vis.distance⟩
  | RenderMode.kNormal => Except.ok vis.normal
  | RenderMode.kFull =>
    let m := obj.material
    let general := Vec.add m.intensity m.ambient_color
    let ds := shadeLights g scene view_ray vis m
    let inside := obj.isInside view_ray.direction vis.normal
    let refrStep : Except Unit Vec :=
      if 0 < m.albedo.z then
        match g.refract view_ray.direction vis.normal (1 / m.refraction_index) with
        | none => Except.error ()
        | some r0 =>
          let rdir := g.normalize r0
          let origin := Vec.add vis.position (Vec.smul (1 / 100000) rdir)
          match recurse ⟨origin, rdir⟩ with
          | Except.error e => Except.error e
          | Except.ok c => Except.ok (if inside then c else Vec.smul m.albedo.z c)
      else Except.ok Vec.zero
    match refrStep with
    | Except.error e => Except.error e
    | Except.ok refracted =>
      let reflStep : Except Unit Vec :=
        if 0 < m.albedo.y ∧ inside = false then
          let origin := Vec.add vis.position (Vec.smul (1 / 100000) vis.normal)
          let rdir := g.normalize (g.reflect view_ray.direction vis.normal)
          recurse ⟨origin, rdir⟩
        else Except.ok Vec.zero
      match reflStep with
      | Except.error e => Except.error e
      | Except.ok reflected =>
        Except.ok (Vec.add
          (Vec.add
            (Vec.add general (Vec.smul m.albedo.x (Vec.add ds.1 ds.2)))
            (Vec.smul m.albedo.y reflected))
          refracted)

/-- `RayCast` (lines 106-130) with the mode held fixed and the depth made the
recursion argument (the options are copied by value; only the depth changes
across nested calls). -/
def RayCastN (g : Geo) (scene : Scene) (mode : RenderMode) :
    Nat → Ray → Except Unit Vec
  | 0, _ => Except.ok Vec.zero
  | d + 1, view_ray =>
    let r1 := FindNearestIntersection scene.objects view_ray g.default_i false
    let r2 := FindNearestIntersection scene.sphere_objects view_ray r1.1 r1.2.isSome
    match r2.2 with
    | some sphere => GetColorBody g scene view_ray mode r2.1 sphere (RayCastN g scene mode d)
    | none =>
      match r1.2 with
      | some triangle =>
        GetColorBody g scene view_ray mode (triangle.defineNormal r2.1) triangle
          (RayCastN g scene mode d)
      | none => Except.ok Vec.zero

/-- `GetColor` for the shaded modes: `d` is the budget after the C++
`opt.depth -= 1`, so both bounces recurse into `RayCast` at depth `d`. -/
def GetColor (g : Geo) (scene : Scene) (view_ray : Ray) (mode : RenderMode)
    (d : Nat) (vis : Intersection) (obj : Obj) : Except Unit Vec :=
  GetColorBody g scene view_ray mode vis obj (RayCastN g scene mode d)

/-- `RayCast(scene, view_ray, opt, result)`. -/
def RayCast (g : Geo) (scene : Scene) (view_ray : Ray) (opt : RenderOptions) :
    Except Unit Vec :=
  RayCastN g scene opt.mode opt.depth view_ray

/-- The refraction step of the instrumented evaluator (same control flow as
the corresponding branch of `GetColorBody`): besides the result it returns
the (caller depth, callee depth) pairs of the nested `RayCast` invocations
made below it, and the count of scene queries they performed. -/
def refrStepT (g : Geo) (view_ray : Ray) (d : Nat) (vis : Intersection)
    (obj : Obj) (recurse : Ray → Except Unit Vec × List (Nat × Nat) × Nat) :
    Except Unit Vec × List (Nat × Nat) × Nat :=
  let m := obj.material
  let inside := obj.isInside view_ray.direction vis.normal
  if 0 < m.albedo.z then
    match g.refract view_ray.direction vis.normal (1 / m.refraction_index) with
    | none => (Except.error (), [], 0)
    | some r0 =>
      let rdir := g.normalize r0
      let origin := Vec.add vis.position (Vec.smul (1 / 100000) rdir)
      let sub := recurse ⟨origin, rdir⟩
      (match sub.1 with
       | Except.error e => Except.error e
       | Except.ok c => Except.ok (if inside then c else Vec.smul m.albedo.z c),
       (d + 1, d) :: sub.2.1, sub.2.2)
  else (Except.ok Vec.zero, [], 0)

/-- The reflection step of the instrumented evaluator. -/
def reflStepT (g : Geo) (view_ray : Ray) (d : Nat) (vis : Intersection)
    (obj : Obj) (recurse : Ray → Except Unit Vec × List (Nat × Nat) × Nat) :
    Except Unit Vec × List (Nat × Nat) × Nat :=
  let m := obj.material
  let inside := obj.isInside view_ray.direction vis.normal
  if 0 < m.albedo.y ∧ inside = false then
    let origin := Vec.add vis.position (Vec.smul (1 / 100000) vis.normal)
    let rdir := g.normalize (g.reflect view_ray.direction vis.normal)
    let sub := recurse ⟨origin, rdir⟩
    (sub.1, (d + 1, d) :: sub.2.1, sub.2.2)
  else (Except.ok Vec.zero, [], 0)

/-- The instrumented twin of `GetColorBody`: same control flow, and besides
the color it returns the list of (caller depth, callee depth) pairs of every
nested `RayCast` invocation in the whole recursion tree, and a count of the
scene queries made (each `FindNearestIntersection` call over a collection
counts 1; each `IsInShadow` call makes two searches, so the shading loop
contributes 2 per light). -/
def GetColorBodyT (g : Geo) (scene : Scene) (view_ray : Ray) (mode : RenderMode)
    (d : Nat) (vis : Intersection) (obj : Obj)
    (recurse : Ray → Except Unit Vec × List (Nat × Nat) × Nat) :
    Except Unit Vec × List (Nat × Nat) × Nat :=
  match mode with
  | RenderMode.kDepth => (Except.ok ⟨vis.distance, vis.distance, vis.distance⟩, [], 0)
  | RenderMode.kNormal => (Except.ok vis.normal, [], 0)
  | RenderMode.kFull =>
    let m := obj.material
    let general := Vec.add m.intensity m.ambient_color
    let ds := shadeLights g scene view_ray vis m
    let lightQ := 2 * scene.lights.length
    let refr := refrStepT g view_ray d vis obj recurse
    match refr.1 with
    | Except.error e => (Except.error e, refr.2.1, lightQ + refr.2.2)
    | Except.ok refracted =>
      let refl := reflStepT g view_ray d vis obj recurse
      match refl.1 with
      | Except.error e =>
        (Except.error e, refr.2.1 ++ refl.2.1, lightQ + refr.2.2 + refl.2.2)
      | Except.ok reflected =>
        (Except.ok (Vec.add
          (Vec.add
            (Vec.add general (Vec.smul m.albedo.x (Vec.add ds.1 ds.2)))
            (Vec.smul m.albedo.y reflected))
          refracted),
         refr.2.1 ++ refl.2.1, lightQ + refr.2.2 + refl.2.2)

/-- The instrumented twin of `RayCastN`. -/
def RayCastNT (g : Geo) (scene : Scene) (mode : RenderMode) :
    Nat → Ray → Except Unit Vec × List (Nat × Nat) × Nat
  | 0, _ => (Except.ok Vec.zero, [], 0)
  | d + 1, view_ray =>
    let r1 := FindNearestIntersection scene.objects view_ray g.default_i false
    let r2 := FindNearestIntersection scene.sphere_objects view_ray r1.1 r1.2.isSome
    match r2.2 with
    | some sphere =>
      let sub := GetColorBodyT g scene view_ray mode d r2.1 sphere (RayCastNT g scene mode d)
      (sub.1, sub.2.1, 2 + sub.2.2)
    | none =>
      match r1.2 with
      | some triangle =>
        let sub := GetColorBodyT g scene view_ray mode d (triangle.defineNormal r2.1) triangle
          (RayCastNT g scene mode d)
        (sub.1, sub.2.1, 2 + sub.2.2)
      | none => (Except.ok Vec.zero, [], 2)

/-- The instrumented twin of `RayCast`. -/
def RayCastT (g : Geo) (scene : Scene) (view_ray : Ray) (opt : RenderOptions) :
    Except Unit Vec × List (Nat × Nat) × Nat :=
  RayCastNT g scene opt.mode opt.depth view_ray

/-- Modelled from the spec (4.3, shaded mode, steps 1-7): the Shading
Evaluator as the spec words it.  It reuses the source's light loop
(`shadeLights`, step 2 restates it verbatim) and the source's recursive
`RayCast`; the one place its words differ from the source is step 5: on
total internal reflection "the refraction contribution is silently omitted"
(here: zero), where the source dereferences the disengaged optional. -/
def specShadedColor (g : Geo) (scene : Scene) (view_ray : Ray) (d : Nat)
    (vis : Intersection) (obj : Obj) : Except Unit Vec :=
  let m := obj.material
  let base := Vec.add m.intensity m.ambient_color
  let ds := shadeLights g scene view_ray vis m
  let inside := obj.isInside view_ray.direction vis.normal
  let refrStep : Except Unit Vec :=
    if 0 < m.albedo.z then
      match g.refract view_ray.direction vis.normal (1 / m.refraction_index) with
      | none => Except.ok Vec.zero
      | some r0 =>
        let rdir := g.normalize r0
        let origin := Vec.add vis.position (Vec.smul (1 / 100000) rdir)
        match RayCastN g scene RenderMode.kFull d ⟨origin, rdir⟩ with
        | Except.error e => Except.error e
        | Except.ok c => Except.ok (if inside then c else Vec.smul m.albedo.z c)
    else Except.ok Vec.zero
  match refrStep with
  | Except.error e => Except.error e
  | Except.ok refracted =>
    let reflStep : Except Unit Vec :=
      if 0 < m.albedo.y ∧ inside = false then
        let origin := Vec.add vis.position (Vec.smul (1 / 100000) vis.normal)
        let rdir := g.normalize (g.reflect view_ray.direction vis.normal)
        RayCastN g scene RenderMode.kFull d ⟨origin, rdir⟩
      else Except.ok Vec.zero
    match reflStep with
    | Except.error e => Except.error e
    | Except.ok reflected =>
      Except.ok (Vec.add
        (Vec.add
          (Vec.add base (Vec.smul m.albedo.x (Vec.add ds.1 ds.2)))
          (Vec.smul m.albedo.y reflected))
        refracted)

/-- The expression tree of src/calculator.cpp: `Const` and `Operation`
(which stores an arbitrary operator character). -/
inductive Expression where
  | const (value : Int)
  | operation (op_type : Char) (left right : Expression)
  deriving DecidableEq

/-- `Operation::Evaluate` / `Const::Evaluate` (calculator.cpp lines 99-135).
C++ `int64_t` division by zero is undefined behavior, modelled as
`Except.error ()`; the result composition is otherwise the same.  The
`default` case runs an assert on a
non-null string literal, which never fires, and returns 0 WITHOUT
evaluating the children.  (The printing side effect is dropped; it reruns
the same pure evaluations.) -/
def Expression.Evaluate : Expression → Except Unit Int
  | Expression.const v => Except.ok v
  | Expression.operation c l r =>
    match c with
    | '*' =>
      match Expression.Evaluate l, Expression.Evaluate r with
      | Except.ok a, Except.ok b => Except.ok (a * b)
      | Except.error u, _ => Except.error u
      | Except.ok _, Except.error u => Except.error u
    | '/' =>
      match Expression.Evaluate l, Expression.Evaluate r with
      | Except.ok a, Except.ok b =>
        if b = 0 then Except.error () else Except.ok (Int.tdiv a b)
      | Except.error u, _ => Except.error u
      | Except.ok _, Except.error u => Except.error u
    | '+' =>
      match Expression.Evaluate l, Expression.Evaluate r with
      | Except.ok a, Except.ok b => Except.ok (a + b)
      | Except.error u, _ => Except.error u
      | Except.ok _, Except.error u => Except.error u
    | '-' =>
      match Expression.Evaluate l, Expression.Evaluate r with
      | Except.ok a, Except.ok b => Except.ok (a - b)
      | Except.error u, _ => Except.error u
      | Except.ok _, Except.error u => Except.error u
    | _ => Except.ok 0

deriving instance DecidableEq for Except

/-- Every division node's right subexpression evaluates to a nonzero value
(the claim's precondition, read node by node over the whole tree). -/
def divisionSafe : Expression → Prop
  | Expression.const _ => True
  | Expression.operation c l r =>
    divisionSafe l ∧ divisionSafe r ∧
      (c = '/' → Expression.Evaluate r ≠ Except.ok 0)

/-- Decidability of `divisionSafe`, so that concrete trees evaluate. -/
def divisionSafe.dec : (e : Expression) → Decidable (divisionSafe e)
  | Expression.const _ => Decidable.isTrue trivial
  | Expression.operation c l r =>
    haveI hl : Decidable (divisionSafe l) := divisionSafe.dec l
    haveI hr : Decidable (divisionSafe r) := divisionSafe.dec r
    decidable_of_iff
      (divisionSafe l ∧ divisionSafe r ∧ (c = '/' → Expression.Evaluate r ≠ Except.ok 0))
      Iff.rfl

instance (e : Expression) : Decidable (divisionSafe e) := divisionSafe.dec e

/-- The tree is built from the four operator characters the parser produces. -/
def supportedOps : Expression → Prop
  | Expression.const _ => True
  | Expression.operation c l r =>
    (c = '*' ∨ c = '/' ∨ c = '+' ∨ c = '-') ∧ supportedOps l ∧ supportedOps r

/-- Decidability of `supportedOps`. -/
def supportedOps.dec : (e : Expression) → Decidable (supportedOps e)
  | Expression.const _ => Decidable.isTrue trivial
  | Expression.operation c l r =>
    haveI hl : Decidable (supportedOps l) := supportedOps.dec l
    haveI hr : Decidable (supportedOps r) := supportedOps.dec r
    decidable_of_iff
      ((c = '*' ∨ c = '/' ∨ c = '+' ∨ c = '-') ∧ supportedOps l ∧ supportedOps r)
      Iff.rfl

instance (e : Expression) : Decidable (supportedOps e) := supportedOps.dec e

/-- A concrete geometry substrate for evaluating theorems on closed inputs:
trivial functions, and `Refract` always reports total internal reflection. -/
def g0 : Geo where
  length := fun _ => 0
  normalize := fun v => v
  dot := fun _ _ => 0
  reflect := fun v _ => v
  refract := fun _ _ _ => none
  pow := fun _ _ => 0
  default_i := { distance := 0, position := Vec.zero, normal := Vec.zero }

/-- A substrate whose `Length` is the constant 1, farther than every epsilon. -/
def gBig : Geo := { g0 with length := fun _ => 1 }

def emptyScene : Scene := { objects := [], sphere_objects := [], lights := [] }

def ray0 : Ray := { origin := Vec.zero, direction := ⟨0, 0, 1⟩ }

def vis0 : Intersection := { distance := 1, position := Vec.zero, normal := ⟨0, 0, 1⟩ }

def light0 : Light := { position := Vec.zero, intensity := Vec.zero }

/-- A fully diffuse material: albedo (1,0,0), every color zero. -/
def matDiffuse : Material where
  ambient_color := Vec.zero
  intensity := Vec.zero
  diffuse_color := Vec.zero
  specular_color := Vec.zero
  specular_exponent := 1
  refraction_index := 1
  albedo := ⟨1, 0, 0⟩

/-- A refraction-only material: albedo (0,0,1). -/
def matTIR : Material := { matDiffuse with albedo := ⟨0, 0, 1⟩, refraction_index := 2 }

def objDiffuse : Obj where
  material := matDiffuse
  intersect := fun _ => none
  isInside := fun _ _ => false
  defineNormal := fun i => i

def objTIR : Obj := { objDiffuse with material := matTIR }

theorem Vec.add_zero_right (v : Vec) : Vec.add v Vec.zero = v := by
  cases v
  simp [Vec.add, Vec.zero]

theorem Vec.smul_one_left (v : Vec) : Vec.smul 1 v = v := by
  cases v
  simp [Vec.smul]

theorem Vec.smul_zero_left (v : Vec) : Vec.smul 0 v = Vec.zero := by
  cases v
  simp [Vec.smul, Vec.zero]

theorem fniLoop_all_none (ray : Ray) (flag : Bool) :
    ∀ (objs : List Obj) (best : Intersection) (target : Option Obj),
      (∀ o ∈ objs, o.intersect ray = none) →
      fniLoop ray flag objs best target = (best, target) := by
  intro objs
  induction objs with
  | nil => intro best target _; rfl
  | cons obj rest ih =>
    intro best target h
    have hI : obj.intersect ray = none := h obj (List.mem_cons_self obj rest)
    simp only [fniLoop, hI]
    exact ih best target (fun o ho => h o (List.mem_cons_of_mem obj ho))

theorem fniLoop_keeps_target (ray : Ray) (flag : Bool) :
    ∀ (objs : List Obj) (best : Intersection) (o : Obj),
      (fniLoop ray flag objs best (some o)).2 ≠ none := by
  intro objs
  induction objs with
  | nil => intro best o h; exact Option.noConfusion h
  | cons obj rest ih =>
    intro best o
    cases hI : obj.intersect ray with
    | none => simpa only [fniLoop, hI] using ih best o
    | some i =>
      simp only [fniLoop, hI]
      split
      · exact ih i obj
      · exact ih best o

theorem fniLoop_strict (ray : Ray) (flag : Bool) :
    ∀ (objs : List Obj) (best : Intersection) (target : Option Obj),
      flag = true ∨ target ≠ none →
      ((fniLoop ray flag objs best target).1 = best ∨
        (fniLoop ray flag objs best target).1.distance < best.distance) ∧
      ∀ o ∈ objs, ∀ i, o.intersect ray = some i →
        (fniLoop ray flag objs best target).1.distance ≤ i.distance := by
  intro objs
  induction objs with
  | nil =>
    intro best target _
    exact ⟨Or.inl rfl, by simp⟩
  | cons obj rest ih =>
    intro best target h
    cases hI : obj.intersect ray with
    | none =>
      simp only [fniLoop, hI]
      refine ⟨(ih best target h).1, ?_⟩
      intro o ho i hoi
      rcases List.mem_cons.mp ho with rfl | ho2
      · rw [hI] at hoi; exact Option.noConfusion hoi
      · exact (ih best target h).2 o ho2 i hoi
    | some i =>
      have hcond : ¬(flag = false ∧ target.isNone = true) := by
        rcases h with hf | ht
        · rintro ⟨hf2, _⟩; rw [hf] at hf2; exact Bool.noConfusion hf2
        · rintro ⟨_, ht2⟩; exact ht (Option.isNone_iff_eq_none.mp ht2)
      by_cases hlt : i.distance < best.distance
      · simp only [fniLoop, hI, if_pos (Or.inr hlt)]
        have ihr := ih i (some obj) (Or.inr (Option.some_ne_none obj))
        constructor
        · right
          rcases ihr.1 with he | hl
          · rw [he]; exact hlt
          · exact lt_trans hl hlt
        · intro o ho j hoj
          rcases List.mem_cons.mp ho with rfl | ho2
          · rw [hI] at hoj
            injection hoj with hij
            subst hij
            rcases ihr.1 with he | hl
            · exact le_of_eq (congrArg Intersection.distance he)
            · exact le_of_lt hl
          · exact ihr.2 o ho2 j hoj
      · have hnot : ¬((flag = false ∧ target.isNone = true) ∨ i.distance < best.distance) := by
          rintro (hc | hc)
          · exact hcond hc
          · exact hlt hc
        simp only [fniLoop, hI, if_neg hnot]
        have ihr := ih best target h
        refine ⟨ihr.1, ?_⟩
        intro o ho j hoj
        rcases List.mem_cons.mp ho with rfl | ho2
        · rw [hI] at hoj
          injection hoj with hij
          subst hij
          have hbest : (fniLoop ray flag rest best target).1.distance ≤ best.distance := by
            rcases ihr.1 with he | hl
            · exact le_of_eq (congrArg Intersection.distance he)
            · exact le_of_lt hl
          exact le_trans hbest (not_lt.mp hlt)
        · exact ihr.2 o ho2 j hoj

theorem fniLoop_first (ray : Ray) :
    ∀ (objs : List Obj) (best : Intersection),
      (∀ o ∈ objs, ∀ i, o.intersect ray = some i →
        (fniLoop ray false objs best none).1.distance ≤ i.distance) ∧
      ((fniLoop ray false objs best none).2 = none →
        (fniLoop ray false objs best none).1 = best ∧
          ∀ o ∈ objs, o.intersect ray = none) := by
  intro objs
  induction objs with
  | nil =>
    intro best
    exact ⟨by simp, fun _ => ⟨rfl, by simp⟩⟩
  | cons obj rest ih =>
    intro best
    cases hI : obj.intersect ray with
    | none =>
      simp only [fniLoop, hI]
      refine ⟨?_, ?_⟩
      · intro o ho i hoi
        rcases List.mem_cons.mp ho with rfl | ho2
        · rw [hI] at hoi; exact Option.noConfusion hoi
        · exact (ih best).1 o ho2 i hoi
      · intro hnone
        refine ⟨((ih best).2 hnone).1, ?_⟩
        intro o ho
        rcases List.mem_cons.mp ho with rfl | ho2
        · exact hI
        · exact ((ih best).2 hnone).2 o ho2
    | some i =>
      simp only [fniLoop, hI]
      split
      · have hstrict := fniLoop_strict ray false rest i (some obj)
          (Or.inr (Option.some_ne_none obj))
        refine ⟨?_, ?_⟩
        · intro o ho j hoj
          rcases List.mem_cons.mp ho with rfl | ho2
          · rw [hI] at hoj
            injection hoj with hij
            subst hij
            rcases hstrict.1 with he | hl
            · exact le_of_eq (congrArg Intersection.distance he)
            · exact le_of_lt hl
          · exact hstrict.2 o ho2 j hoj
        · intro hnone
          exact absurd hnone (fniLoop_keeps_target ray false rest i obj)
      · next hfalse => exact absurd (Or.inl ⟨trivial, rfl⟩) hfalse

/-- C2: two collections searched in sequence over one ray and one shared
best-so-far record - the first search with the carry-over flag false, the
second with the flag set to whether the first found a winner - end with a
best whose distance is less than or equal to every valid intersection
distance in either collection; and once the first search produced a
candidate, the second either leaves it unchanged or replaces it by a
strictly smaller distance. -/
theorem FindNearest_seq_global_min (ray : Ray) (objs1 objs2 : List Obj)
    (best0 : Intersection) (r1 r2 : Intersection × Option Obj)
    (h1 : r1 = FindNearestIntersection objs1 ray best0 false)
    (h2 : r2 = FindNearestIntersection objs2 ray r1.1 r1.2.isSome) :
    (∀ o ∈ objs1, ∀ i, o.intersect ray = some i → r2.1.distance ≤ i.distance) ∧
    (∀ o ∈ objs2, ∀ i, o.intersect ray = some i → r2.1.distance ≤ i.distance) ∧
    (r1.2.isSome = true → r2.1 = r1.1 ∨ r2.1.distance < r1.1.distance) := by
  subst h1
  subst h2
  simp only [FindNearestIntersection]
  cases hT : (fniLoop ray false objs1 best0 none).2 with
  | none =>
    simp only [Option.isSome_none]
    refine ⟨?_, ?_, ?_⟩
    · intro o ho i hoi
      have hall := ((fniLoop_first ray objs1 best0).2 hT).2 o ho
      rw [hall] at hoi
      exact Option.noConfusion hoi
    · exact (fniLoop_first ray objs2 (fniLoop ray false objs1 best0 none).1).1
    · intro hfalse
      exact Bool.noConfusion hfalse
  | some o1 =>
    simp only [Option.isSome_some]
    have hstrict := fniLoop_strict ray true objs2
      (fniLoop ray false objs1 best0 none).1 none (Or.inl rfl)
    refine ⟨?_, hstrict.2, fun _ => hstrict.1⟩
    intro o ho i hoi
    have hfirst := (fniLoop_first ray objs1 best0).1 o ho i hoi
    have hsecond : (fniLoop ray true objs2 (fniLoop ray false objs1 best0 none).1 none).1.distance ≤
        (fniLoop ray false objs1 best0 none).1.distance := by
      rcases hstrict.1 with he | hl
      · exact le_of_eq (congrArg Intersection.distance he)
      · exact le_of_lt hl
    exact le_trans hsecond hfirst

/-- An object every ray hits at `vis0` (distance 1). -/
def objHit : Obj := { objDiffuse with intersect := fun _ => some vis0 }

/-- Witness for C2 at a concrete input: one hitting object in the first
collection, empty second collection. -/
theorem FindNearest_seq_global_min_witness :
    (FindNearestIntersection [] ray0
      (FindNearestIntersection [objHit] ray0 g0.default_i false).1
      (FindNearestIntersection [objHit] ray0 g0.default_i false).2.isSome).1.distance ≤
      vis0.distance :=
  (FindNearest_seq_global_min ray0 [objHit] [] g0.default_i _ _ rfl rfl).1
    objHit (List.mem_singleton.mpr rfl) vis0 rfl

/-- C8: a ray with no valid intersection in either collection yields, at any
positive depth, exactly the background (zero) color. -/
theorem RayCast_miss_background (g : Geo) (scene : Scene) (ray : Ray)
    (opt : RenderOptions)
    (h1 : ∀ o ∈ scene.objects, o.intersect ray = none)
    (h2 : ∀ o ∈ scene.sphere_objects, o.intersect ray = none)
    (h3 : 0 < opt.depth) :
    RayCast g scene ray opt = Except.ok Vec.zero := by
  obtain ⟨mode, depth⟩ := opt
  cases depth with
  | zero => exact absurd h3 (lt_irrefl 0)
  | succ d =>
    have e1 : fniLoop ray false scene.objects g.default_i none = (g.default_i, none) :=
      fniLoop_all_none ray false scene.objects g.default_i none h1
    show RayCastN g scene mode (d + 1) ray = Except.ok Vec.zero
    simp only [RayCastN, FindNearestIntersection, e1]
    have e2 : fniLoop ray ((g.default_i, (none : Option Obj)).2.isSome)
        scene.sphere_objects (g.default_i, (none : Option Obj)).1 none =
        ((g.default_i, (none : Option Obj)).1, none) :=
      fniLoop_all_none ray _ scene.sphere_objects _ none h2
    simp only [e2]

/-- Witness for C8: the empty scene at depth 1. -/
theorem RayCast_miss_background_witness :
    RayCast g0 emptyScene ray0 ⟨RenderMode.kFull, 1⟩ = Except.ok Vec.zero :=
  RayCast_miss_background g0 emptyScene ray0 ⟨RenderMode.kFull, 1⟩
    (by simp [emptyScene]) (by simp [emptyScene]) (by decide)

/-- C4: with remaining depth 0, `RayCast` returns the background (zero)
color whatever the scene holds, and (instrumented run) performs no
intersection search or other scene query and records no nested invocation. -/
theorem RayCast_depth_zero_background (g : Geo) (scene : Scene) (ray : Ray)
    (mode : RenderMode) :
    RayCast g scene ray ⟨mode, 0⟩ = Except.ok Vec.zero ∧
    RayCastT g scene ray ⟨mode, 0⟩ = (Except.ok Vec.zero, [], 0) :=
  ⟨rfl, rfl⟩

/-- C7: the Shadow Tester reports shadow exactly when the nearest hit along
the light ray is farther than epsilon (1e-6) from the queried point; in
particular, when the point itself is the nearest hit (no other geometry
between light and point) it is reported as not shadowed.  The hypothesis is
the substrate contract that the length of the zero vector is 0. -/
theorem IsInShadow_nearest_hit (g : Geo) (scene : Scene) (light : Light)
    (pos : Vec) (hlen : g.length (Vec.sub pos pos) = 0) :
    (IsInShadow g scene light pos = true ↔
      1 / 1000000 < g.length (Vec.sub pos (shadowBest g scene light pos).position)) ∧
    ((shadowBest g scene light pos).position = pos →
      IsInShadow g scene light pos = false) := by
  constructor
  · simp only [IsInShadow, decide_eq_true_eq]
  · intro hp
    simp only [IsInShadow, hp, hlen]
    rw [decide_eq_false_iff_not]
    norm_num

/-- Witness for C7: empty scene, query point at the default intersection. -/
theorem IsInShadow_nearest_hit_witness :
    IsInShadow g0 emptyScene light0 Vec.zero = false :=
  (IsInShadow_nearest_hit g0 emptyScene light0 Vec.zero rfl).2 rfl

/-- C9: with both primitive collections empty, the Shadow Tester's best
record stays the default-constructed `Intersection`, so the point is
reported in shadow exactly when it lies farther than 1e-6 from the default
record's position. -/
theorem IsInShadow_empty_scene (g : Geo) (scene : Scene) (light : Light)
    (pos : Vec) (h1 : scene.objects = []) (h2 : scene.sphere_objects = []) :
    shadowBest g scene light pos = g.default_i ∧
    (IsInShadow g scene light pos = true ↔
      1 / 1000000 < g.length (Vec.sub pos g.default_i.position)) := by
  have hb : shadowBest g scene light pos = g.default_i := by
    simp [shadowBest, h1, h2, FindNearestIntersection, fniLoop]
  exact ⟨hb, by simp only [IsInShadow, hb, decide_eq_true_eq]⟩

/-- Witness for C9: the empty scene under a substrate whose length is
constantly 1 reports every point as shadowed. -/
theorem IsInShadow_empty_scene_witness :
    IsInShadow gBig emptyScene light0 Vec.zero = true ∧
    shadowBest gBig emptyScene light0 Vec.zero = gBig.default_i :=
  ⟨((IsInShadow_empty_scene gBig emptyScene light0 Vec.zero rfl rfl).2).mpr
      (by norm_num [gBig, g0]),
   (IsInShadow_empty_scene gBig emptyScene light0 Vec.zero rfl rfl).1⟩

/-- C1: the claim (and the spec) say the absent optional refracted direction
is never dereferenced; in the source, `refracted_ray->Normalize()` runs
BEFORE `if (refracted_ray)`, so whenever the refraction branch is taken and
`Refract` reports total internal reflection the disengaged optional IS
dereferenced (undefined behavior, modelled as `Except.error ()`), instead of
the claimed silent omission. -/
theorem GetColor_tir_deref (g : Geo) (scene : Scene) (view_ray : Ray) (d : Nat)
    (vis : Intersection) (obj : Obj)
    (hz : 0 < obj.material.albedo.z)
    (hr : g.refract view_ray.direction vis.normal
      (1 / obj.material.refraction_index) = none) :
    GetColor g scene view_ray RenderMode.kFull d vis obj = Except.error () := by
  unfold GetColor GetColorBody
  rw [one_div] at hr
  simp [hz, hr]

/-- Witness for C1: a concrete refraction-only material under a substrate
whose `Refract` reports total internal reflection. -/
theorem GetColor_tir_deref_witness :
    GetColor g0 emptyScene ray0 RenderMode.kFull 0 vis0 objTIR = Except.error () :=
  GetColor_tir_deref g0 emptyScene ray0 0 vis0 objTIR
    (by norm_num [objTIR, objDiffuse, matTIR, matDiffuse]) rfl

/-- C5 counterexample: at a total-internal-reflection input the shaded output
is not the claimed combination (the spec-worded evaluator yields the zero
color there; the source dereferences the disengaged optional instead). -/
theorem GetColor_shaded_formula_counterexample :
    GetColor g0 emptyScene ray0 RenderMode.kFull 0 vis0 objTIR ≠
      specShadedColor g0 emptyScene ray0 0 vis0 objTIR := by
  have hl : GetColor g0 emptyScene ray0 RenderMode.kFull 0 vis0 objTIR =
      Except.error () := by
    unfold GetColor GetColorBody
    norm_num [objTIR, objDiffuse, matTIR, matDiffuse, g0]
  have hr : specShadedColor g0 emptyScene ray0 0 vis0 objTIR =
      Except.ok Vec.zero := by
    unfold specShadedColor
    norm_num [objTIR, objDiffuse, matTIR, matDiffuse, g0, shadeLights, emptyScene,
      Vec.smul_zero_left, Vec.add_zero_right]
  rw [hl, hr]
  exact fun h => Except.noConfusion h

/-- C5 (amended): provided `Refract` succeeds whenever the refraction branch
is taken (no total internal reflection at this surface - otherwise the
source's behavior is undefined, see the counterexample), the shaded output
is exactly base + albedo[0]*(diffuse+specular) + albedo[1]*reflected +
refracted, with the refracted recursive result scaled by albedo[2] only when
the ray is not inside, and the reflected contribution computed only when
albedo[1] > 0 and not inside (zero otherwise) - the spec-worded evaluator. -/
theorem GetColor_shaded_formula (g : Geo) (scene : Scene) (view_ray : Ray)
    (d : Nat) (vis : Intersection) (obj : Obj)
    (htir : 0 < obj.material.albedo.z →
      g.refract view_ray.direction vis.normal
        (1 / obj.material.refraction_index) ≠ none) :
    GetColor g scene view_ray RenderMode.kFull d vis obj =
      specShadedColor g scene view_ray d vis obj := by
  unfold GetColor GetColorBody specShadedColor
  by_cases hz : 0 < obj.material.albedo.z
  · cases hrf : g.refract view_ray.direction vis.normal
        (1 / obj.material.refraction_index) with
    | none => exact absurd hrf (htir hz)
    | some r0 => simp only [if_pos hz, hrf]
  · simp only [if_neg hz]

/-- Witness for C5: a material that never takes the refraction branch. -/
theorem GetColor_shaded_formula_witness :
    GetColor g0 emptyScene ray0 RenderMode.kFull 0 vis0 objDiffuse =
      specShadedColor g0 emptyScene ray0 0 vis0 objDiffuse :=
  GetColor_shaded_formula g0 emptyScene ray0 0 vis0 objDiffuse
    (fun h => absurd h (by norm_num [objDiffuse, matDiffuse]))

/-- C6: with albedo exactly (1,0,0) the shaded output is exactly
base + diffuse + specular; the right-hand side mentions neither the
refraction index nor the reflection/refraction machinery. -/
theorem GetColor_albedo_one_zero_zero (g : Geo) (scene : Scene) (view_ray : Ray)
    (d : Nat) (vis : Intersection) (obj : Obj)
    (h : obj.material.albedo = ⟨1, 0, 0⟩) :
    GetColor g scene view_ray RenderMode.kFull d vis obj =
      Except.ok (Vec.add
        (Vec.add obj.material.intensity obj.material.ambient_color)
        (Vec.add (shadeLights g scene view_ray vis obj.material).1
          (shadeLights g scene view_ray vis obj.material).2)) := by
  unfold GetColor GetColorBody
  simp only [h]
  norm_num [Vec.smul_one_left, Vec.smul_zero_left, Vec.add_zero_right]

/-- Witness for C6: the concrete fully diffuse material. -/
theorem GetColor_albedo_one_zero_zero_witness :
    GetColor g0 emptyScene ray0 RenderMode.kFull 0 vis0 objDiffuse =
      Except.ok (Vec.add
        (Vec.add objDiffuse.material.intensity objDiffuse.material.ambient_color)
        (Vec.add (shadeLights g0 emptyScene ray0 vis0 objDiffuse.material).1
          (shadeLights g0 emptyScene ray0 vis0 objDiffuse.material).2)) :=
  GetColor_albedo_one_zero_zero g0 emptyScene ray0 0 vis0 objDiffuse rfl

theorem refrStepT_trace (g : Geo) (view_ray : Ray) (d : Nat)
    (vis : Intersection) (obj : Obj)
    (recurse : Ray → Except Unit Vec × List (Nat × Nat) × Nat)
    (h : ∀ r, ∀ p ∈ (recurse r).2.1, p.1 = p.2 + 1) :
    ∀ p ∈ (refrStepT g view_ray d vis obj recurse).2.1, p.1 = p.2 + 1 := by
  unfold refrStepT
  by_cases hz : 0 < obj.material.albedo.z
  · simp only [if_pos hz]
    cases hrf : g.refract view_ray.direction vis.normal
        (1 / obj.material.refraction_index) with
    | none => simp
    | some r0 =>
      intro p hp
      simp only [List.mem_cons] at hp
      rcases hp with rfl | hp2
      · rfl
      · exact h _ p hp2
  · simp only [if_neg hz]
    simp

theorem reflStepT_trace (g : Geo) (view_ray : Ray) (d : Nat)
    (vis : Intersection) (obj : Obj)
    (recurse : Ray → Except Unit Vec × List (Nat × Nat) × Nat)
    (h : ∀ r, ∀ p ∈ (recurse r).2.1, p.1 = p.2 + 1) :
    ∀ p ∈ (reflStepT g view_ray d vis obj recurse).2.1, p.1 = p.2 + 1 := by
  unfold reflStepT
  by_cases hc : 0 < obj.material.albedo.y ∧
      obj.isInside view_ray.direction vis.normal = false
  · simp only [if_pos hc]
    intro p hp
    simp only [List.mem_cons] at hp
    rcases hp with rfl | hp2
    · rfl
    · exact h _ p hp2
  · simp only [if_neg hc]
    simp

theorem GetColorBodyT_trace (g : Geo) (scene : Scene) (view_ray : Ray)
    (mode : RenderMode) (d : Nat) (vis : Intersection) (obj : Obj)
    (recurse : Ray → Except Unit Vec × List (Nat × Nat) × Nat)
    (h : ∀ r, ∀ p ∈ (recurse r).2.1, p.1 = p.2 + 1) :
    ∀ p ∈ (GetColorBodyT g scene view_ray mode d vis obj recurse).2.1,
      p.1 = p.2 + 1 := by
  have h1 := refrStepT_trace g view_ray d vis obj recurse h
  have h2 := reflStepT_trace g view_ray d vis obj recurse h
  cases mode with
  | kDepth => simp [GetColorBodyT]
  | kNormal => simp [GetColorBodyT]
  | kFull =>
    unfold GetColorBodyT
    cases hr1 : (refrStepT g view_ray d vis obj recurse).1 with
    | error e =>
      simp only [hr1]
      exact h1
    | ok refracted =>
      simp only [hr1]
      cases hr2 : (reflStepT g view_ray d vis obj recurse).1 with
      | error e =>
        simp only [hr2]
        intro p hp
        rcases List.mem_append.mp hp with hp1 | hp2
        · exact h1 p hp1
        · exact h2 p hp2
      | ok reflected =>
        simp only [hr2]
        intro p hp
        rcases List.mem_append.mp hp with hp1 | hp2
        · exact h1 p hp1
        · exact h2 p hp2

theorem RayCastNT_trace (g : Geo) (scene : Scene) (mode : RenderMode) :
    ∀ (d : Nat) (ray : Ray),
      ∀ p ∈ (RayCastNT g scene mode d ray).2.1, p.1 = p.2 + 1 := by
  intro d
  induction d with
  | zero =>
    intro ray p hp
    simp [RayCastNT] at hp
  | succ n ih =>
    intro ray
    unfold RayCastNT
    dsimp only
    split
    · exact GetColorBodyT_trace g scene ray mode n _ _ _ (fun r => ih r)
    · split
      · exact GetColorBodyT_trace g scene ray mode n _ _ _ (fun r => ih r)
      · simp

/-- C3: `RayCast` is a total function of its depth budget (it terminates for
every scene, ray and initial depth); in the instrumented run every nested
invocation recorded from a reflection or refraction bounce is made at a
depth exactly one below its caller, and a call at depth 0 returns the zero
background color with no nested invocation and no scene query. -/
theorem RayCast_depth_decrement (g : Geo) (scene : Scene) (ray : Ray)
    (opt : RenderOptions) :
    (∀ p ∈ (RayCastT g scene ray opt).2.1, p.1 = p.2 + 1) ∧
    (opt.depth = 0 → RayCastT g scene ray opt = (Except.ok Vec.zero, [], 0)) := by
  constructor
  · exact RayCastNT_trace g scene opt.mode opt.depth ray
  · intro h
    simp only [RayCastT, h]
    rfl

/-- A tree with an unsupported operator character shielding a division by
zero: `Operation::Evaluate`'s default case returns 0 without evaluating the
children. -/
def exprBad : Expression :=
  Expression.operation 'x'
    (Expression.operation '/' (Expression.const 1) (Expression.const 0))
    (Expression.const 0)

/-- A plain supported division. -/
def exprDiv : Expression :=
  Expression.operation '/' (Expression.const 6) (Expression.const 2)

/-- C10 counterexample: on `exprBad` evaluation succeeds (the unsupported
operator returns 0 without touching its children) although a division node's
right subexpression evaluates to zero - the claimed equivalence fails. -/
theorem Evaluate_div_safe_counterexample :
    ¬ ((∃ v, Expression.Evaluate exprBad = Except.ok v) ↔ divisionSafe exprBad) := by
  intro h
  have hsafe := h.mp ⟨0, rfl⟩
  exact absurd hsafe (by decide)

/-- C10 (amended): for trees built from the four operator characters the
parser produces ('*', '/', '+', '-'), evaluation is free of division by zero
(returns a value) if and only if every division node's right subexpression
evaluates to a nonzero value; under that precondition the division-error
branch is unreachable.  (An `Operation` holding any other character returns
0 without evaluating its children, so a division by zero below it is
unreachable - hence the restriction, see the counterexample.) -/
theorem Evaluate_div_safe_iff (e : Expression) (hs : supportedOps e) :
    (∃ v, Expression.Evaluate e = Except.ok v) ↔ divisionSafe e := by
  induction e with
  | const v => exact ⟨fun _ => trivial, fun _ => ⟨v, rfl⟩⟩
  | operation c l r ihl ihr =>
    obtain ⟨hc, hsl, hsr⟩ := hs
    have hl := ihl hsl
    have hr := ihr hsr
    rcases hc with rfl | rfl | rfl | rfl
    · -- '*'
      constructor
      · rintro ⟨v, hv⟩
        cases el : Expression.Evaluate l with
        | error u => rw [Expression.Evaluate, el] at hv; exact Except.noConfusion hv
        | ok a =>
          cases er : Expression.Evaluate r with
          | error u =>
            rw [Expression.Evaluate, el, er] at hv
            exact Except.noConfusion hv
          | ok b =>
            exact ⟨hl.mp ⟨a, el⟩, hr.mp ⟨b, er⟩,
              fun hch => absurd hch (by decide)⟩
      · rintro ⟨dl, dr, -⟩
        obtain ⟨a, el⟩ := hl.mpr dl
        obtain ⟨b, er⟩ := hr.mpr dr
        exact ⟨a * b, by rw [Expression.Evaluate, el, er]⟩
    · -- '/'
      constructor
      · rintro ⟨v, hv⟩
        cases el : Expression.Evaluate l with
        | error u => rw [Expression.Evaluate, el] at hv; exact Except.noConfusion hv
        | ok a =>
          cases er : Expression.Evaluate r with
          | error u =>
            rw [Expression.Evaluate, el, er] at hv
            exact Except.noConfusion hv
          | ok b =>
            rw [Expression.Evaluate, el, er] at hv
            dsimp only at hv
            by_cases hb : b = 0
            · rw [if_pos hb] at hv
              exact Except.noConfusion hv
            · refine ⟨hl.mp ⟨a, el⟩, hr.mp ⟨b, er⟩, fun _ => ?_⟩
              rw [er]
              intro habs
              injection habs with hb0
              exact hb hb0
      · rintro ⟨dl, dr, hnz⟩
        obtain ⟨a, el⟩ := hl.mpr dl
        obtain ⟨b, er⟩ := hr.mpr dr
        have hb : ¬b = 0 := by
          intro hb0
          subst hb0
          exact hnz rfl er
        exact ⟨Int.tdiv a b, by
          rw [Expression.Evaluate, el, er]
          dsimp only
          rw [if_neg hb]⟩
    · -- '+'
      constructor
      · rintro ⟨v, hv⟩
        cases el : Expression.Evaluate l with
        | error u => rw [Expression.Evaluate, el] at hv; exact Except.noConfusion hv
        | ok a =>
          cases er : Expression.Evaluate r with
          | error u =>
            rw [Expression.Evaluate, el, er] at hv
            exact Except.noConfusion hv
          | ok b =>
            exact ⟨hl.mp ⟨a, el⟩, hr.mp ⟨b, er⟩,
              fun hch => absurd hch (by decide)⟩
      · rintro ⟨dl, dr, -⟩
        obtain ⟨a, el⟩ := hl.mpr dl
        obtain ⟨b, er⟩ := hr.mpr dr
        exact ⟨a + b, by rw [Expression.Evaluate, el, er]⟩
    · -- '-'
      constructor
      · rintro ⟨v, hv⟩
        cases el : Expression.Evaluate l with
        | error u => rw [Expression.Evaluate, el] at hv; exact Except.noConfusion hv
        | ok a =>
          cases er : Expression.Evaluate r with
          | error u =>
            rw [Expression.Evaluate, el, er] at hv
            exact Except.noConfusion hv
          | ok b =>
            exact ⟨hl.mp ⟨a, el⟩, hr.mp ⟨b, er⟩,
              fun hch => absurd hch (by decide)⟩
      · rintro ⟨dl, dr, -⟩
        obtain ⟨a, el⟩ := hl.mpr dl
        obtain ⟨b, er⟩ := hr.mpr dr
        exact ⟨a - b, by rw [Expression.Evaluate, el, er]⟩

/-- Witness for C10: a supported division tree with nonzero divisor
evaluates to a value. -/
theorem Evaluate_div_safe_iff_witness :
    ∃ v, Expression.Evaluate exprDiv = Except.ok v :=
  (Evaluate_div_safe_iff exprDiv (by decide)).mpr (by decide)
